import Mathlib

/-!
Verification of the transcript-acquisition / resilient-generation pipeline of
the video_learning repository.

The Python sources are shallowly embedded: pure string manipulation becomes
functions on `List Char` (mirroring Python's codepoint strings), JSON values
become the inductive `Jv`, and each external boundary (caption fetch, AI
transcription, the text-generation provider, `json.loads`) is supplied as an
explicit outcome argument, so that a function models exactly the try/except
control flow of its Python counterpart on every possible outcome of those
boundaries.
-/

namespace VLearn

/-! ## Python string primitives (codepoint-level, on `List Char`) -/

/-- Characters treated as whitespace by Python's `str.strip()`. -/
def pySpace (c : Char) : Bool :=
  c = ' ' || c = '\t' || c = '\n' || c = '\x0d' || c = '\x0b' || c = '\x0c'

/-- Python `str.strip()`: drop leading and trailing whitespace. -/
def pyStrip (s : List Char) : List Char :=
  ((s.dropWhile pySpace).reverse.dropWhile pySpace).reverse

/-- Boolean list-prefix test (used to model literal matching and Python's
substring containment). -/
def preB : List Char → List Char → Bool
  | [], _ => true
  | _ :: _, [] => false
  | p :: ps, c :: cs => p == c && preB ps cs

/-- Python `pat in s` on strings: `pat` occurs as a contiguous substring. -/
def occurs (pat : List Char) : List Char → Bool
  | [] => pat.isEmpty
  | c :: cs => preB pat (c :: cs) || occurs pat cs

/-- Fuelled worker for Python `str.split(pat)` (left-to-right, non-overlapping).
One unit of fuel is spent per character position, so `s.length` fuel always
suffices. -/
def splitF (pat : List Char) : Nat → List Char → List (List Char)
  | _, [] => [[]]
  | 0, s => [s]
  | f + 1, c :: cs =>
    if pat ≠ [] ∧ preB pat (c :: cs) = true then
      [] :: splitF pat f ((c :: cs).drop pat.length)
    else
      match splitF pat f cs with
      | [] => [[c]]
      | h :: tl => (c :: h) :: tl

/-- Python `s.split(pat)` for a non-empty separator `pat`. -/
def splitOnSub (pat s : List Char) : List (List Char) :=
  splitF pat s.length s

/-- Python `s.replace(pat, r)` for a non-empty `pat`, via the identity
`s.replace(a, b) = b.join(s.split(a))`. -/
def replaceAll (pat r s : List Char) : List Char :=
  List.intercalate r (splitOnSub pat s)

/-- Python `' '.join(parts)`. -/
def joinSpace : List String → String
  | [] => ""
  | [t] => t
  | t :: rest => t ++ " " ++ joinSpace rest

/-- Python `s.startswith(pre)`. -/
def pyStartsWith (pre : String) (s : String) : Bool := preB pre.data s.data

/-- Python `s.strip()` on `String`. -/
def pyStripS (s : String) : String := String.mk (pyStrip s.data)

/-- Python `pat in s` on `String`. -/
def occursS (pat : String) (s : String) : Bool := occurs pat.data s.data

/-! ## JSON values (results of Python's `json.loads`) -/

/-- A parsed JSON value as produced by `json.loads`: objects keep their fields
as an ordered association list, as Python dicts do. -/
inductive Jv where
  | jnull
  | jbool (b : Bool)
  | jnum (n : Int)
  | jstr (s : String)
  | jarr (xs : List Jv)
  | jobj (fields : List (String × Jv))

/-- First-match lookup in an object's field list (Python dict keys are
unique, so first-match agrees with dict lookup). -/
def lookupKey : List (String × Jv) → String → Option Jv
  | [], _ => none
  | (k, v) :: rest, key => if k = key then some v else lookupKey rest key

/-- Python `key in d` for a dict `d`. -/
def hasKey (d : List (String × Jv)) (key : String) : Bool :=
  (lookupKey d key).isSome

/-- Python `d[key] = v`: replace the value if the key is present, else append
the new entry at the end (dicts preserve insertion order). -/
def setKey : List (String × Jv) → String → Jv → List (String × Jv)
  | [], key, v => [(key, v)]
  | (k, w) :: rest, key, v =>
    if k = key then (key, v) :: rest else (k, w) :: setKey rest key v

/-- Field lookup on a `Jv` that is only meaningful for objects. -/
def jvGetKey : Jv → String → Option Jv
  | .jobj d, key => lookupKey d key
  | _, _ => none

/-- Python truthiness (`not v` is `jvFalsy v`). -/
def jvFalsy : Jv → Bool
  | .jnull => true
  | .jbool b => !b
  | .jnum n => n == 0
  | .jstr s => s == ""
  | .jarr xs => xs.isEmpty
  | .jobj d => d.isEmpty

/-- Python `key in xs` for a list `xs`, with a string on the left: membership
by equality, and a string compares equal only to an equal string. -/
def listHasStr (key : String) (xs : List Jv) : Bool :=
  xs.any (fun v => match v with | .jstr s => s == key | _ => false)

/-! ## VideoProcessor.extract_transcript (src/components/video_processor.py)

The three external sources are passed in as outcomes: `tier1` is the result of
`YouTubeTranscriptApi.get_transcript` (`Except.error` when it raised, otherwise
the list of entry texts), `tier2` is the result of
`gemini_manager.transcribe_youtube_video` guarded by the availability of the
manager, and `fileContent` is what `open(...).read()` of the sample file
yielded (`none` when reading raised). -/

/-- Which return statement of `extract_transcript` produced the result;
the spec's `TranscriptResult.source`. -/
inductive TSource where
  | Captions
  | AIGenerated
  | Sample

/-- The spec's `TranscriptResult`; `isDegraded` records `source != Captions`. -/
structure TranscriptResult where
  text : String
  source : TSource
  isDegraded : Bool

/-- Fallback sample hardcoded in `load_sample_transcript` (line 67). -/
def hardcodedSample : String :=
  "This is a sample transcript about artificial intelligence and machine learning technologies. AI and ML are transforming how we interact with technology and solve complex problems. Machine learning enables systems to learn from data and improve over time without explicit programming."

/-- Model of `VideoProcessor.load_sample_transcript` (lines 54-67): returns the
stripped file content, or the hardcoded sample when reading raised. It never
raises. -/
def load_sample_transcript (fileContent : Option String) : String :=
  match fileContent with
  | some s => pyStripS s
  | none => hardcodedSample

/-- Tier 1 gate (lines 134-144): the text returned by a successful caption
fetch, when the entry list is non-empty, the joined text truthy and its
stripped length strictly greater than 50; `none` when the tier raised or its
content was insufficient. -/
def tier1_result (tier1 : Except Unit (List String)) : Option String :=
  match tier1 with
  | .error _ => none
  | .ok entries =>
    if entries = [] then none
    else
      let transcript := joinSpace entries
      if transcript ≠ "" ∧ (pyStripS transcript).length > 50 then some transcript
      else none

/-- Tier 2 gate (lines 146-161): the Gemini transcription when the manager is
available, the call did not raise, and the text is truthy, not an error string
(`startswith("Failed to transcribe")`) and long enough; `none` otherwise. -/
def tier2_result (avail : Bool) (tier2 : Except Unit String) : Option String :=
  if avail then
    match tier2 with
    | .error _ => none
    | .ok t =>
      if t ≠ "" ∧ pyStartsWith "Failed to transcribe" t = false ∧
          (pyStripS t).length > 50 then some t
      else none
  else none

/-- Demo-mode notice prepended to the sample transcript (line 169). -/
def demoPrefix : String :=
  "[DEMO MODE] The following is a sample transcript as the original video transcript could not be extracted:\n\n"

/-- Model of `VideoProcessor.extract_transcript` (lines 109-175): strict three-tier
fallback. Tier 3 (lines 163-171) cannot raise because
`load_sample_transcript` is total, so the handler at lines 173-175 is dead and
the function always returns. The `source`/`isDegraded` fields record which
tier's return statement fired, as the spec's `TranscriptResult` does. -/
def extract_transcript (tier1 : Except Unit (List String)) (avail : Bool)
    (tier2 : Except Unit String) (fileContent : Option String) :
    TranscriptResult :=
  match tier1_result tier1 with
  | some t => ⟨t, .Captions, false⟩
  | none =>
    match tier2_result avail tier2 with
    | some t => ⟨t, .AIGenerated, true⟩
    | none =>
      ⟨demoPrefix ++ load_sample_transcript fileContent, .Sample, true⟩

/-! ## VideoProcessor.extract_video_id (lines 35-52)

The Python code runs `re.search` with the pattern

  `(?:youtube\.com\/(?:[^\/\n\s]+\/\S+\/|(?:v|e(?:mbed)?)\/|\S*?[?&]v=)|youtu\.be\/)([a-zA-Z0-9_-]{11})`

and raises `ValueError` (`InvalidReference`) when there is no match. The
pattern is embedded below with Python's backtracking semantics: `re.search`
tries each start position left to right; alternatives are tried left to
right; `+` is greedy (longest repetition first), `*?` lazy (shortest first).
Every quantifier in this pattern repeats a single-character class, so the
matcher can thread continuations over suffixes of the input. -/

/-- Character class `[a-zA-Z0-9_-]` of the capture group. -/
def idChar (c : Char) : Bool := c.isAlphanum || c = '_' || c = '-'

/-- Character class `[^\/\n\s]` (ASCII `\s` coincides with `pySpace`). -/
def segChar (c : Char) : Bool := !(c = '/' || pySpace c)

/-- Character class `\S`. -/
def notSpace (c : Char) : Bool := !(pySpace c)

/-- Match a literal, then continue on the remaining input. -/
def litK (pat s : List Char) (k : List Char → Option (List Char)) :
    Option (List Char) :=
  cond (preB pat s) (k (s.drop pat.length)) none

/-- Match one character of a class, then continue. -/
def classK (cls : List Char) (s : List Char)
    (k : List Char → Option (List Char)) : Option (List Char) :=
  match s with
  | [] => none
  | c :: cs => cond (cls.contains c) (k cs) none

/-- Greedy `p+` over a one-character class: consume as many `p`-characters as
possible, backtracking to shorter non-empty repetitions when the continuation
fails. -/
def gp (p : Char → Bool) (s : List Char)
    (k : List Char → Option (List Char)) : Option (List Char) :=
  match s with
  | [] => none
  | c :: cs =>
    cond (p c)
      (match gp p cs k with
       | some r => some r
       | none => k cs)
      none

/-- Lazy `p*?` over a one-character class: try the continuation first, then
consume one more `p`-character. -/
def lazyStar (p : Char → Bool) (s : List Char)
    (k : List Char → Option (List Char)) : Option (List Char) :=
  match s with
  | [] => k []
  | c :: cs =>
    match k (c :: cs) with
    | some r => some r
    | none => cond (p c) (lazyStar p cs k) none

/-- The capture group `([a-zA-Z0-9_-]{11})`: exactly eleven identifier
characters; the rest of the input is irrelevant. Returns the capture. -/
def cap11 (s : List Char) : Option (List Char) :=
  let cand := s.take 11
  cond (cand.length == 11 && cand.all idChar) (some cand) none

/-- Tail of alternative A after its second `\/`: the capture itself must
still be preceded by one more literal `\/`. -/
def aInner (r3 : List Char) : Option (List Char) :=
  litK [ '/' ] r3 cap11

/-- Tail of alternative A after its first `\/`: `\S+\/` then the capture. -/
def aMid (r2 : List Char) : Option (List Char) :=
  gp notSpace r2 aInner

/-- Tail of alternative A after `[^\/\n\s]+`: `\/\S+\/` then the capture. -/
def aK (r1 : List Char) : Option (List Char) :=
  litK [ '/' ] r1 aMid

/-- Alternative `[^\/\n\s]+\/\S+\/` (followed by the capture). -/
def branchA (s : List Char) : Option (List Char) :=
  gp segChar s aK

/-- Alternative `(?:v|e(?:mbed)?)\/` (followed by the capture); Python tries
`v`, then `embed`, then `e`. -/
def branchB (s : List Char) : Option (List Char) :=
  match litK (("v/").data) s cap11 with
  | some r => some r
  | none =>
    match litK (("embed/").data) s cap11 with
    | some r => some r
    | none => litK (("e/").data) s cap11

/-- Tail of alternative C after `\S*?`: `[?&]v=` then the capture. -/
def qvK (r : List Char) : Option (List Char) :=
  classK [ '?', '&' ] r (fun r2 => litK (("v=").data) r2 cap11)

/-- Alternative `\S*?[?&]v=` (followed by the capture). -/
def branchC (s : List Char) : Option (List Char) :=
  lazyStar notSpace s qvK

/-- What follows the literal `youtube.com/`: the three inner alternatives in
Python's order. -/
def afterHost (s : List Char) : Option (List Char) :=
  match branchA s with
  | some r => some r
  | none =>
    match branchB s with
    | some r => some r
    | none => branchC s

/-- Try the whole pattern at one start position. -/
def matchFrom (s : List Char) : Option (List Char) :=
  match litK (("youtube.com/").data) s afterHost with
  | some r => some r
  | none => litK (("youtu.be/").data) s cap11

/-- Model of `re.search`: try each start position left to right. -/
def searchAux (s : List Char) : Option (List Char) :=
  match matchFrom s with
  | some r => some r
  | none =>
    match s with
    | [] => none
    | _ :: cs => searchAux cs

/-- Model of `VideoProcessor.extract_video_id`: the captured group of the first match,
`none` when the code raises `ValueError` (`InvalidReference`). -/
def extract_video_id (url : List Char) : Option (List Char) :=
  searchAux url

/-- Modelled from the spec's words (section 6): a string "matches one of the
hosting service's known URL shapes (watch?v=, youtu.be/, /embed/, /v/)" when
it contains one of those four markers as a substring. Used only to compare
the spec's characterisation with the code's regex. -/
def spec_known_url_shape (s : List Char) : Bool :=
  occurs (("watch?v=").data) s || occurs (("youtu.be/").data) s ||
  occurs (("/embed/").data) s || occurs (("/v/").data) s

/-! ## GoogleADKManager.generate_text (src/utils/google_adk_manager.py)

The provider boundary (`model.generate_content` plus the `response.text`
accessor, lines 78-90) is passed in as `outcome`: `Except.error e` when the
call raised with message `e`, `Except.ok raw` when it returned text. The
code makes exactly one such call per `generate_text` invocation — there is no
retry construct — which the embedding reflects by consuming one outcome. -/

/-- The backquote character (used by the code-fence markers). -/
def tick : Char := Char.ofNat 96

/-- The fence-with-language-tag marker, three backquotes then `json`. -/
def bjson : List Char := ("```json").data

/-- The bare fence marker, three backquotes. -/
def bt : List Char := ("```").data

/-- Lines 93-104: the cleanup applied to a raw reply when
`response_format == "json"`: strip `\x60\x60\x60json` / `\x60\x60\x60`
markers, then trim whitespace. -/
def cleanJsonResponse (t : List Char) : List Char :=
  let t1 :=
    if occurs bjson t = true then
      replaceAll bt [] (replaceAll bjson [] t)
    else if occurs bt t = true then
      let p := (splitOnSub bt t).getD 1 []
      if occurs bt p = true then (splitOnSub bt p).headD [] else p
    else t
  pyStrip t1

/-- Which branch of `generate_text` produced the returned string: the normal
return at line 106, or the except-handler return at lines 108-114 (the
spec's `ProviderError` signal, which the code hands to its caller as a
fallback payload rather than re-raising). -/
inductive GenText where
  | success (text : String)
  | providerError (text : String)

/-- Lines 110-114: the fallback payload built in the except handler. -/
def fallbackText (response_format : Option String) (e : String) : String :=
  if response_format = some "json" then
    "\x7b\"error\": \"Failed to generate response\", \"message\": \"" ++ e ++
      "\"\x7d"
  else
    "Failed to generate response: " ++ e

/-- Lines 90-106: the text returned on the normal path — cleaned when JSON
format was requested, verbatim otherwise. -/
def cleanFor (response_format : Option String) (raw : String) : String :=
  if response_format = some "json" then String.mk (cleanJsonResponse raw.data)
  else raw

/-- Model of `GoogleADKManager.generate_text` (lines 41-114) as a function of the
single provider-call outcome. Everything inside the `try` other than the
provider call and `response.text` is raise-free string manipulation, so the
except handler fires exactly when the call outcome is an error. -/
def generate_text (outcome : Except String String)
    (response_format : Option String) : GenText :=
  match outcome with
  | .error e => .providerError (fallbackText response_format e)
  | .ok raw => .success (cleanFor response_format raw)

/-- Variant of `generate_text` reading a stream of would-be call outcomes: the code
performs a single attempt, so only the first element is consumed. -/
def generate_text_calls (calls : Nat → Except String String)
    (response_format : Option String) : GenText :=
  generate_text (calls 0) response_format

/-- Whether a `GenText` is the `ProviderError` signal. -/
def isProviderError : GenText → Bool
  | .providerError _ => true
  | .success _ => false

/-- Whether the provider call itself failed. -/
def isCallError : Except String String → Bool
  | .error _ => true
  | .ok _ => false

/-! ## QuizAgent.generate_quiz (src/components/quiz_agent.py, lines 59-112)

The provider call plus `json.loads` are passed in as `outcome`: `none` when
generation or parsing raised, otherwise the parsed JSON value. -/

/-- Python `key in q` for an arbitrary value `q` as used by the validation
loop at line 81: key lookup on dicts, substring test on strings, membership
on lists; on numbers, booleans and `None` the operator raises `TypeError`
(`none` here). -/
def pyIn (key : String) : Jv → Option Bool
  | .jobj d => some (hasKey d key)
  | .jstr s => some (occursS key s)
  | .jarr xs => some (listHasStr key xs)
  | _ => none

/-- The required keys of a question object (line 81). -/
def quizRequiredKeys : List String :=
  ["question", "options", "correct_answer", "correct_feedback",
    "incorrect_feedback"]

/-- Python `all(key in q for key in keys)` with short-circuiting; `none`
when a containment test raises. -/
def allIn : List String → Jv → Option Bool
  | [], _ => some true
  | k :: ks, q =>
    match pyIn k q with
    | none => none
    | some false => some false
    | some true => allIn ks q

/-- The hardcoded fallback questions (lines 93-108). -/
def sample_questions : List Jv :=
  [.jobj [("question", .jstr "What is the main concept discussed in the video?"),
    ("options", .jarr [.jstr "Option A", .jstr "Option B", .jstr "Option C",
      .jstr "Option D"]),
    ("correct_answer", .jstr "Option B"),
    ("correct_feedback",
      .jstr "That's correct! The video primarily focuses on Option B."),
    ("incorrect_feedback",
      .jstr "Not quite. The video primarily discusses Option B.")],
  .jobj [("question",
      .jstr "According to the video, which technique is most effective?"),
    ("options", .jarr [.jstr "Technique 1", .jstr "Technique 2",
      .jstr "Technique 3", .jstr "Technique 4"]),
    ("correct_answer", .jstr "Technique 3"),
    ("correct_feedback",
      .jstr "Correct! The video demonstrates that Technique 3 is most effective."),
    ("incorrect_feedback",
      .jstr "Actually, the video specifically shows Technique 3 to be most effective.")]]

/-- Lines 110-112: `sample_questions * (num_questions // 2 + 1)` then
`[:num_questions]`. -/
def cannedQuestions (num_questions : Nat) : List Jv :=
  ((List.replicate (num_questions / 2 + 1) sample_questions).flatten).take
    num_questions

/-- The validation loop of lines 79-84: keep items passing the key check,
skip the others; `none` when a containment test raised (which sends the
whole call to the canned fallback). -/
def processLoop : List Jv → Option (List Jv)
  | [] => some []
  | q :: rest =>
    match allIn quizRequiredKeys q with
    | none => none
    | some true => (processLoop rest).map (q :: ·)
    | some false => processLoop rest

/-- Lines 71-75: select the `questions` value. On a dict, take the
`questions` entry when present, else the whole object; on a list or string,
`"questions" in` is membership/substring and the subscript
`questions_data["questions"]` (reached only when the test succeeds) raises
`TypeError` (`none`); on numbers, booleans and `None` the `in` itself
raises (`none`). -/
def quizSource (questions_data : Jv) : Option Jv :=
  match questions_data with
  | .jobj d =>
    if hasKey d "questions" = true then lookupKey d "questions"
    else some questions_data
  | .jarr xs =>
    if listHasStr "questions" xs = true then none
    else some questions_data
  | .jstr s =>
    if occursS "questions" s = true then none else some questions_data
  | _ => none

/-- Lines 77-89: validate a list of questions; a non-list `questions` value
raises `ValueError` at line 89 and any raise lands in the canned fallback. -/
def quizFrom (qsrc : Option Jv) (num_questions : Nat) : List Jv :=
  match qsrc with
  | none => cannedQuestions num_questions
  | some (.jarr xs) =>
    match processLoop (xs.take num_questions) with
    | some out => out
    | none => cannedQuestions num_questions
  | some _ => cannedQuestions num_questions

/-- Model of `QuizAgent.generate_quiz` as a function of the parsed provider response
(`none` when generation or `json.loads` raised). -/
def generate_quiz (outcome : Option Jv) (num_questions : Nat) : List Jv :=
  match outcome with
  | none => cannedQuestions num_questions
  | some questions_data => quizFrom (quizSource questions_data) num_questions

/-! ## SummarizerAgent (src/components/summarizer_agent.py)

`generate_summary` (lines 131-287) and `refine_summary` (lines 289-362).
The provider call, the summariser's own fence cleanup and `json.loads` are
collapsed into an outcome argument placed after parsing; prompt construction
affects only the provider call and is absorbed by the oracle. -/

/-- Outcome of the generation-plus-parse region of `generate_summary`.
`raised etype emsg` covers any exception reaching the outer handler at line
274 — the provider call raising, or `json.loads` returning a non-dict so
that the field checks at lines 248-255 raise `TypeError` (only
`json.JSONDecodeError` is caught by the inner handler). `parseFailed errmsg
cleaned` is a `JSONDecodeError` with message `errmsg` on the cleaned text
`cleaned`. -/
inductive SummOutcome where
  | raised (etype emsg : String)
  | parseFailed (errmsg cleaned : String)
  | parsed (fields : List (String × Jv))

/-- Lines 144-152: the payload for a falsy or non-string transcript. -/
def invalid_payload : Jv :=
  .jobj [("summary_text",
      .jstr "Unable to generate summary: Invalid transcript format."),
    ("key_points", .jarr [.jstr "Invalid transcript data",
      .jstr "Please ensure the video has captions available"]),
    ("topics", .jarr [.jstr "Error: Invalid Input"])]

/-- Lines 154-162: the payload for a transcript under 50 stripped
characters. -/
def tooShort_payload : Jv :=
  .jobj [("summary_text",
      .jstr "Unable to generate summary: Transcript too short or empty."),
    ("key_points", .jarr [.jstr "Insufficient transcript content",
      .jstr "The video may have limited or no captions"]),
    ("topics", .jarr [.jstr "Error: Insufficient Content"])]

/-- Lines 274-287: the payload built by the outer exception handler. -/
def errorPayload (etype emsg : String) : Jv :=
  .jobj [("summary_text",
      .jstr ("Unable to generate summary due to an error: " ++ etype)),
    ("key_points", .jarr [.jstr ("Error: " ++ String.mk (emsg.data.take 100)),
      .jstr "This may be due to API rate limits, connection issues, or content policies",
      .jstr "Please try again with a different video or transcript"]),
    ("topics", .jarr [.jstr ("Error: " ++ etype)])]

/-- Lines 259-272: the payload built when JSON parsing fails. -/
def parseErrorPayload (errmsg cleaned : String) : Jv :=
  .jobj [("summary_text",
      .jstr "Unable to generate summary: Invalid response format."),
    ("key_points", .jarr [.jstr "Error parsing AI response",
      .jstr ("JSON error: " ++ errmsg),
      .jstr ("Raw response: " ++ String.mk (cleaned.data.take 100) ++ "...")]),
    ("topics", .jarr [.jstr "Error: Response Formatting Issue"])]

/-- Line 248-249: fill `summary_text` with the hardcoded default only when
the key is absent (presence with any value, even empty, is kept). -/
def sFix1 (d : List (String × Jv)) : List (String × Jv) :=
  if hasKey d "summary_text" = true then d
  else setKey d "summary_text" (.jstr "Summary not available.")

/-- Lines 251-252: fill `key_points` when absent or falsy. -/
def sFix2 (d : List (String × Jv)) : List (String × Jv) :=
  if hasKey d "key_points" = false ∨
      jvFalsy ((lookupKey d "key_points").getD .jnull) = true then
    setKey d "key_points" (.jarr [.jstr "Key points not available."])
  else d

/-- Lines 254-255: fill `topics` when absent or falsy. -/
def sFix3 (d : List (String × Jv)) : List (String × Jv) :=
  if hasKey d "topics" = false ∨
      jvFalsy ((lookupKey d "topics").getD .jnull) = true then
    setKey d "topics" (.jarr [.jstr "Topics not available."])
  else d

/-- Model of `SummarizerAgent.generate_summary` as a function of the transcript and
the generation outcome (`summary_length` only shapes the prompt, which the
oracle absorbs). -/
def generate_summary (transcript : String) (outcome : SummOutcome) : Jv :=
  if transcript = "" then invalid_payload
  else if (pyStripS transcript).length < 50 then tooShort_payload
  else
    match outcome with
    | .raised etype emsg => errorPayload etype emsg
    | .parseFailed errmsg cleaned => parseErrorPayload errmsg cleaned
    | .parsed d => .jobj (sFix3 (sFix2 (sFix1 d)))

/-- Outcome of the generation-plus-parse region of `refine_summary`:
`raised` is any exception reaching the handler at line 359 (provider call,
prompt construction over malformed summaries), `parseFailed` a
`JSONDecodeError` at line 355, `parsed v` a parsed JSON value. -/
inductive RefOutcome where
  | raised
  | parseFailed
  | parsed (v : Jv)

/-- Line 344-345: fill a missing `summary_text` from the prior summary
(hardcoded default only when the prior summary also lacks it); a present
value is kept even when empty. -/
def rFix1 (summary d : List (String × Jv)) : List (String × Jv) :=
  if hasKey d "summary_text" = true then d
  else setKey d "summary_text"
    ((lookupKey summary "summary_text").getD (.jstr "Summary not available."))

/-- Lines 347-348: fill an absent-or-falsy `key_points` from the prior
summary. -/
def rFix2 (summary d : List (String × Jv)) : List (String × Jv) :=
  if hasKey d "key_points" = false ∨
      jvFalsy ((lookupKey d "key_points").getD .jnull) = true then
    setKey d "key_points" ((lookupKey summary "key_points").getD
      (.jarr [.jstr "Key points not available."]))
  else d

/-- Lines 350-351: fill an absent-or-falsy `topics` from the prior
summary. -/
def rFix3 (summary d : List (String × Jv)) : List (String × Jv) :=
  if hasKey d "topics" = false ∨
      jvFalsy ((lookupKey d "topics").getD .jnull) = true then
    setKey d "topics" ((lookupKey summary "topics").getD
      (.jarr [.jstr "Topics not available."]))
  else d

/-- Model of `SummarizerAgent.refine_summary` as a function of the prior summary and
the refinement outcome. A parsed non-dict value makes the `in`/assignment
sequence of lines 344-351 raise `TypeError`, which the outer handler at line
359 turns into `return summary` — hence the final catch-all arm. -/
def refine_summary (summary : List (String × Jv)) (outcome : RefOutcome) :
    Jv :=
  match outcome with
  | .raised => .jobj summary
  | .parseFailed => .jobj summary
  | .parsed (.jobj d) => .jobj (rFix3 summary (rFix2 summary (rFix1 summary d)))
  | .parsed _ => .jobj summary

/-! ## LearningPathAgent.update_recommendations
(src/components/learning_path_agent.py, lines 474-567) -/

/-- Line 553-560 single step: `if key not in updated: updated[key] = cur`
on a dict. -/
def mergeKey (key : String) (curVal : Jv) (d : List (String × Jv)) :
    List (String × Jv) :=
  if hasKey d key = true then d else setKey d key curVal

/-- One `if key not in updated: updated[key] = curVal` statement on an
arbitrary parsed value, with Python's `in` semantics: on a dict, insert when
missing; on a list/string, `in` is membership/substring and the assignment
(reached only when the test fails) raises `TypeError` (`none`); on other
types `in` itself raises (`none`). -/
def setIfMissing (key : String) (curVal : Jv) : Jv → Option Jv
  | .jobj d => some (.jobj (mergeKey key curVal d))
  | .jarr xs => if listHasStr key xs = true then some (.jarr xs) else none
  | .jstr s => if occursS key s = true then some (.jstr s) else none
  | _ => none

/-- Model of `LearningPathAgent.update_recommendations` as a function of the current
recommendations dict and the parse outcome (`none` when the provider call or
`json.loads` raised). Any raise inside the `try` returns the current
recommendations unchanged (line 564-567). -/
def update_recommendations (cur : List (String × Jv)) (outcome : Option Jv) :
    Jv :=
  match outcome with
  | none => .jobj cur
  | some v =>
    match setIfMissing "next_steps"
        ((lookupKey cur "next_steps").getD (.jarr [])) v with
    | none => .jobj cur
    | some v1 =>
      match setIfMissing "recommended_videos"
          ((lookupKey cur "recommended_videos").getD (.jarr [])) v1 with
      | none => .jobj cur
      | some v2 =>
        match setIfMissing "milestones"
            ((lookupKey cur "milestones").getD (.jarr [])) v2 with
        | none => .jobj cur
        | some v3 => v3

/-! ## ChatAssistantAgent.generate_response
(src/components/chat_assistant_agent.py, lines 9-100) -/

/-- Result of one chat turn: the reply text, whether the body formatting
and model call were reached (line 29 returns before them otherwise), and
the `formatted_messages` built at lines 33-37. -/
structure ChatOut where
  reply : String
  calledModel : Bool
  formatted : List (Jv × Jv)

/-- Lines 34-37: one history entry as a role/content pair with the `get`
defaults `'user'` and `''`. -/
def fmtMsg (msg : List (String × Jv)) : Jv × Jv :=
  ((lookupKey msg "role").getD (.jstr "user"),
    (lookupKey msg "content").getD (.jstr ""))

/-- Line 30: the fixed reply when no transcript is in the context. -/
def chatNoTranscriptReply : String :=
  "To answer your question about the video, I'll need to process a video first. Could you please go to the Video Processing section and input a YouTube URL?"

/-- Model of `ChatAssistantAgent.generate_response` as a function of the context
transcript, the chat history and the provider-call outcome. A falsy
transcript (modelled as the empty string) short-circuits at line 29 before
any formatting or model call; otherwise the last five history turns are
formatted (line 34, `chat_history[-5:]`) and the provider is called once,
its exception turned into the apology reply of line 100. -/
def generate_response (user_query : String) (transcript : String)
    (chat_history : List (List (String × Jv)))
    (outcome : Except String String) : ChatOut :=
  if transcript = "" then ⟨chatNoTranscriptReply, false, []⟩
  else
    let formatted :=
      (chat_history.drop (chat_history.length - 5)).map fmtMsg
    match outcome with
    | .ok t => ⟨t, true, formatted⟩
    | .error e =>
      ⟨"I apologize, but I encountered an error while processing your question: "
        ++ e ++ ". Could you try asking in a different way?", true, formatted⟩

/-! ## Helper lemmas -/

theorem preB_length {pat s : List Char} (h : preB pat s = true) :
    pat.length ≤ s.length := by
  induction pat generalizing s with
  | nil => simp
  | cons p ps ih =>
    cases s with
    | nil => simp [preB] at h
    | cons c cs =>
      simp only [preB, Bool.and_eq_true] at h
      simpa using ih h.2

theorem preB_append_self (l r : List Char) : preB l (l ++ r) = true := by
  induction l with
  | nil => rfl
  | cons c cs ih => simpa [preB] using ih

theorem litK_neg {pat s : List Char} {k : List Char → Option (List Char)}
    (h : preB pat s = false) : litK pat s k = none := by
  unfold litK
  rw [h]
  rfl

theorem litK_app (pat r : List Char) (k : List Char → Option (List Char)) :
    litK pat (pat ++ r) k = k r := by
  unfold litK
  rw [preB_append_self, List.drop_left]
  rfl

theorem gp_pos {p : Char → Bool} {c : Char} {cs : List Char}
    {k : List Char → Option (List Char)} (hp : p c = true) :
    gp p (c :: cs) k =
      (match gp p cs k with
       | some r => some r
       | none => k cs) := by
  rw [gp]
  rw [hp]
  rfl

theorem gp_neg {p : Char → Bool} {c : Char} {cs : List Char}
    {k : List Char → Option (List Char)} (hp : p c = false) :
    gp p (c :: cs) k = none := by
  rw [gp]
  rw [hp]
  rfl

theorem gp_pos_none {p : Char → Bool} {c : Char} {cs : List Char}
    {k : List Char → Option (List Char)} (hp : p c = true)
    (h1 : gp p cs k = none) (h2 : k cs = none) :
    gp p (c :: cs) k = none := by
  rw [gp_pos hp, h1, h2]

theorem gp_none {p : Char → Bool} {s : List Char}
    {k : List Char → Option (List Char)}
    (hk : ∀ s', s' <:+ s → k s' = none) : gp p s k = none := by
  induction s with
  | nil => rfl
  | cons c cs ih =>
    cases hp : p c with
    | false => exact gp_neg hp
    | true =>
      refine gp_pos_none hp ?_ ?_
      · exact ih fun s' hs' => hk s' (hs'.trans (List.suffix_cons c cs))
      · exact hk cs (List.suffix_cons c cs)

theorem lazyStar_step {p : Char → Bool} {c : Char} {cs : List Char}
    {k : List Char → Option (List Char)} (hk : k (c :: cs) = none)
    (hp : p c = true) :
    lazyStar p (c :: cs) k = lazyStar p cs k := by
  rw [lazyStar]
  rw [hk, hp]
  rfl

theorem lazyStar_done {p : Char → Bool} {s r : List Char}
    {k : List Char → Option (List Char)} (hk : k s = some r) :
    lazyStar p s k = some r := by
  cases s with
  | nil =>
    rw [lazyStar]
    exact hk
  | cons c cs =>
    rw [lazyStar]
    rw [hk]

theorem cap11_exact {id : List Char} (h11 : id.length = 11)
    (hall : id.all idChar = true) : cap11 id = some id := by
  have ht : id.take 11 = id := by
    rw [← h11, List.take_length]
  show (bif (id.take 11).length == 11 && (id.take 11).all idChar then
    some (id.take 11) else none) = some id
  rw [ht, h11, hall]
  rfl

theorem aInner_no_slash {s' : List Char} (h : ∀ c ∈ s', c ≠ '/') :
    aInner s' = none := by
  cases s' with
  | nil => rfl
  | cons c cs =>
    refine litK_neg ?_
    have : ¬ ('/' == c) = true := by
      simp only [beq_iff_eq]
      exact fun hc => h c (List.mem_cons_self c _) hc.symm
    simp [preB, this]

theorem aMid_no_slash {r2 : List Char} (h : ∀ c ∈ r2, c ≠ '/') :
    aMid r2 = none := by
  refine gp_none fun s' hs' => aInner_no_slash fun c hc => h c (hs'.subset hc)

theorem aK_cons_slash {r : List Char} (h : ∀ c ∈ r, c ≠ '/') :
    aK ('/' :: r) = none := by
  show litK [ '/' ] ('/' :: r) aMid = none
  have : litK [ '/' ] ('/' :: r) aMid = aMid r := litK_app [ '/' ] r aMid
  rw [this]
  exact aMid_no_slash h

theorem aK_no_slash {s' : List Char} (h : ∀ c ∈ s', c ≠ '/') :
    aK s' = none := by
  cases s' with
  | nil => rfl
  | cons c cs =>
    refine litK_neg ?_
    have : ¬ ('/' == c) = true := by
      simp only [beq_iff_eq]
      exact fun hc => h c (List.mem_cons_self c _) hc.symm
    simp [preB, this]

theorem branchA_no_slash {s : List Char} (h : ∀ c ∈ s, c ≠ '/') :
    branchA s = none := by
  refine gp_none fun s' hs' => aK_no_slash fun c hc => h c (hs'.subset hc)

theorem idChar_ne_slash {c : Char} (h : idChar c = true) : c ≠ '/' := by
  intro hc
  rw [hc] at h
  simp [idChar] at h

theorem matchFrom_cons_ne {c : Char} {cs : List Char} (h : c ≠ 'y') :
    matchFrom (c :: cs) = none := by
  have hy : ¬ ('y' == c) = true := by
    simp only [beq_iff_eq]
    exact fun hc => h hc.symm
  unfold matchFrom
  rw [litK_neg (by simp [preB, hy]), litK_neg (by simp [preB, hy])]

theorem searchAux_cons (c : Char) (cs : List Char) :
    searchAux (c :: cs) =
      (match matchFrom (c :: cs) with
       | some r => some r
       | none => searchAux cs) := by
  rw [searchAux]

theorem searchAux_skip {l r : List Char} (h : ∀ c ∈ l, c ≠ 'y') :
    searchAux (l ++ r) = searchAux r := by
  induction l with
  | nil => rfl
  | cons c cs ih =>
    rw [List.cons_append, searchAux_cons,
      matchFrom_cons_ne (h c (List.mem_cons_self c _))]
    exact ih fun c' hc' => h c' (List.mem_cons_of_mem c hc')

theorem preB_head_ne {p c : Char} {ps cs : List Char} (h : c ≠ p) :
    preB (p :: ps) (c :: cs) = false := by
  have : (p == c) = false := beq_eq_false_iff_ne.mpr fun he => h he.symm
  simp [preB, this]

theorem occurs_none (p : Char) (ps t : List Char) (h : ∀ c ∈ t, c ≠ p) :
    occurs (p :: ps) t = false := by
  induction t with
  | nil => rfl
  | cons c cs ih =>
    simp only [occurs, preB_head_ne (h c (List.mem_cons_self c _)),
      Bool.false_or]
    exact ih fun c' hc' => h c' (List.mem_cons_of_mem c hc')

theorem occurs_pass (p : Char) (ps l r : List Char) (h : ∀ c ∈ l, c ≠ p) :
    occurs (p :: ps) (l ++ r) = occurs (p :: ps) r := by
  induction l with
  | nil => rfl
  | cons c cs ih =>
    rw [List.cons_append]
    simp only [occurs, preB_head_ne (h c (List.mem_cons_self c _)),
      Bool.false_or]
    exact ih fun c' hc' => h c' (List.mem_cons_of_mem c hc')

theorem occurs_append_pre (pat r : List Char) (hp : pat ≠ []) :
    occurs pat (pat ++ r) = true := by
  cases pat with
  | nil => exact absurd rfl hp
  | cons p ps =>
    have hpre := preB_append_self (p :: ps) r
    rw [List.cons_append] at hpre ⊢
    simp [occurs, hpre]

theorem splitF_ne_nil (pat : List Char) (f : Nat) (s : List Char) :
    splitF pat f s ≠ [] := by
  induction f generalizing s with
  | zero => cases s <;> simp [splitF]
  | succ f ih =>
    cases s with
    | nil => simp [splitF]
    | cons c cs =>
      simp only [splitF]
      by_cases hP : pat ≠ [] ∧ preB pat (c :: cs) = true
      · rw [if_pos hP]
        simp
      · rw [if_neg hP]
        rcases hsp : splitF pat f cs with _ | ⟨h1, tl⟩ <;> simp

theorem splitF_congr {pat s : List Char} {f f' : Nat} (hf : s.length ≤ f)
    (hf' : s.length ≤ f') : splitF pat f s = splitF pat f' s := by
  induction f generalizing s f' with
  | zero =>
    have hs : s = [] := List.eq_nil_of_length_eq_zero (Nat.le_zero.mp hf)
    subst hs
    cases f' <;> rfl
  | succ f ih =>
    cases s with
    | nil => cases f' <;> rfl
    | cons c cs =>
      cases f' with
      | zero => simp at hf'
      | succ f'' =>
        simp only [splitF]
        by_cases hP : pat ≠ [] ∧ preB pat (c :: cs) = true
        · rw [if_pos hP, if_pos hP]
          have hlen : ((c :: cs).drop pat.length).length ≤ f ∧
              ((c :: cs).drop pat.length).length ≤ f'' := by
            have h1 : 1 ≤ pat.length := by
              cases hpat : pat with
              | nil => exact absurd hpat hP.1
              | cons a as => simp
            simp only [List.length_drop, List.length_cons] at *
            omega
          rw [ih hlen.1 hlen.2]
        · rw [if_neg hP, if_neg hP]
          have hlen : cs.length ≤ f ∧ cs.length ≤ f'' := by
            simp only [List.length_cons] at hf hf'
            omega
          rw [ih hlen.1 hlen.2]

theorem splitOnSub_cons (pat : List Char) (c : Char) (cs : List Char) :
    splitOnSub pat (c :: cs) =
      if pat ≠ [] ∧ preB pat (c :: cs) = true then
        [] :: splitOnSub pat ((c :: cs).drop pat.length)
      else
        match splitOnSub pat cs with
        | [] => [[c]]
        | h :: tl => (c :: h) :: tl := by
  show splitF pat (c :: cs).length (c :: cs) = _
  rw [List.length_cons]
  simp only [splitF]
  by_cases hP : pat ≠ [] ∧ preB pat (c :: cs) = true
  · rw [if_pos hP, if_pos hP]
    have h1 : 1 ≤ pat.length := by
      cases hpat : pat with
      | nil => exact absurd hpat hP.1
      | cons a as => simp
    have : splitF pat cs.length ((c :: cs).drop pat.length) =
        splitOnSub pat ((c :: cs).drop pat.length) := by
      refine splitF_congr ?_ (le_refl _)
      simp only [List.length_drop, List.length_cons]
      omega
    rw [this]
  · rw [if_neg hP, if_neg hP]
    rfl

theorem splitOnSub_self_pre (pat X : List Char) (hp : pat ≠ []) :
    splitOnSub pat (pat ++ X) = [] :: splitOnSub pat X := by
  cases pat with
  | nil => exact absurd rfl hp
  | cons p ps =>
    rw [List.cons_append, splitOnSub_cons]
    have hpre : preB (p :: ps) (p :: (ps ++ X)) = true := by
      have := preB_append_self (p :: ps) X
      rwa [List.cons_append] at this
    rw [if_pos ⟨by simp, hpre⟩]
    congr 1
    simp [List.drop_left]

theorem splitOnSub_pass (p : Char) (ps t rest : List Char)
    (h : ∀ c ∈ t, c ≠ p) :
    splitOnSub (p :: ps) (t ++ rest) =
      match splitOnSub (p :: ps) rest with
      | [] => [t]
      | h1 :: tl => (t ++ h1) :: tl := by
  induction t with
  | nil =>
    rcases h' : splitOnSub (p :: ps) rest with _ | ⟨h1, tl⟩
    · exact absurd h' (splitF_ne_nil _ _ _)
    · simp [h']
  | cons c t' ih =>
    rw [List.cons_append, splitOnSub_cons]
    have hP : ¬((p :: ps) ≠ [] ∧ preB (p :: ps) (c :: (t' ++ rest)) = true) := by
      rintro ⟨-, hpre⟩
      rw [preB_head_ne (h c (List.mem_cons_self c _))] at hpre
      exact Bool.false_ne_true hpre
    rw [if_neg hP, ih fun c' hc' => h c' (List.mem_cons_of_mem c hc')]
    rcases h' : splitOnSub (p :: ps) rest with _ | ⟨h1, tl⟩ <;> simp

theorem preB_json_tail {t : List Char} (hnb : ∀ c ∈ t, c ≠ tick)
    (hnj : preB (("json").data) t = false) :
    preB (("json").data) (t ++ bt) = false := by
  match t with
  | [] => rfl
  | [a] => simp [preB, bt, tick, List.cons_append]
  | [a, b] => simp [preB, bt, tick, List.cons_append]
  | [a, b, c] => simp [preB, bt, tick, List.cons_append]
  | a :: b :: c :: d :: t' =>
    simp only [preB, List.cons_append] at hnj ⊢
    exact hnj

theorem bjson_not_in_untagged {t : List Char} (hnb : ∀ c ∈ t, c ≠ tick)
    (hnj : preB (("json").data) t = false) :
    occurs bjson ((bt ++ t) ++ bt) = false := by
  show occurs bjson (tick :: tick :: tick :: (t ++ bt)) = false
  simp only [occurs]
  have p0 : preB bjson (tick :: tick :: tick :: (t ++ bt)) = false := by
    show (tick == tick && (tick == tick && (tick == tick &&
      preB (("json").data) (t ++ bt)))) = false
    simp only [beq_self_eq_true, Bool.true_and]
    exact preB_json_tail hnb hnj
  have p1 : preB bjson (tick :: tick :: (t ++ bt)) = false := by
    cases t with
    | nil => decide
    | cons c t' =>
      show (tick == tick && (tick == tick && (tick == c &&
        preB (('j') :: ('s') :: ('o') :: ('n') :: []) (t' ++ bt)))) = false
      have hc : (tick == c) = false :=
        beq_eq_false_iff_ne.mpr fun he => hnb c (List.mem_cons_self c _) he.symm
      simp [hc]
  have p2 : preB bjson (tick :: (t ++ bt)) = false := by
    cases t with
    | nil => decide
    | cons c t' =>
      show (tick == tick && (tick == c && preB
        (tick :: ('j') :: ('s') :: ('o') :: ('n') :: []) (t' ++ bt))) = false
      have hc : (tick == c) = false :=
        beq_eq_false_iff_ne.mpr fun he => hnb c (List.mem_cons_self c _) he.symm
      simp [hc]
  have hlast : occurs bjson (t ++ bt) = false := by
    have hb : bjson = tick :: (("``json").data) := rfl
    rw [hb, occurs_pass tick (("``json").data) t bt hnb]
    decide
  rw [p0, p1, p2, hlast]
  rfl

theorem splitOnSub_bt_tail {t : List Char} (h : ∀ c ∈ t, c ≠ tick) :
    splitOnSub bt (t ++ bt) = [t, []] := by
  have hb : bt = tick :: (("``").data) := rfl
  rw [hb, splitOnSub_pass tick (("``").data) t (tick :: (("``").data)) h]
  rw [show splitOnSub (tick :: (("``").data))
    (tick :: (("``").data)) = [[], []] from by decide]
  simp

theorem clean_tagged {t : List Char} (h : ∀ c ∈ t, c ≠ tick) :
    cleanJsonResponse ((bjson ++ t) ++ bt) = pyStrip t := by
  have hocc : occurs bjson (bjson ++ (t ++ bt)) = true :=
    occurs_append_pre bjson (t ++ bt) (by decide)
  have hsplit1 : splitOnSub bjson (bjson ++ (t ++ bt)) = [[], t ++ bt] := by
    rw [splitOnSub_self_pre bjson (t ++ bt) (by decide)]
    have hb : bjson = tick :: (("``json").data) := rfl
    rw [hb, splitOnSub_pass tick (("``json").data) t bt h]
    rw [show splitOnSub (tick :: (("``json").data)) bt = [bt] from by decide]
  have hrepl1 : replaceAll bjson [] (bjson ++ (t ++ bt)) = t ++ bt := by
    unfold replaceAll
    rw [hsplit1]
    simp [List.intercalate, List.intersperse]
  have hrepl2 : replaceAll bt [] (t ++ bt) = t := by
    unfold replaceAll
    rw [splitOnSub_bt_tail h]
    simp [List.intercalate, List.intersperse]
  rw [List.append_assoc]
  simp [cleanJsonResponse, hocc, hrepl1, hrepl2]

theorem clean_untagged {t : List Char} (h : ∀ c ∈ t, c ≠ tick)
    (hnj : preB (("json").data) t = false) :
    cleanJsonResponse ((bt ++ t) ++ bt) = pyStrip t := by
  have hno := bjson_not_in_untagged h hnj
  rw [List.append_assoc] at hno ⊢
  have hyes : occurs bt (bt ++ (t ++ bt)) = true :=
    occurs_append_pre bt (t ++ bt) (by decide)
  have hsplit : splitOnSub bt (bt ++ (t ++ bt)) = [[], t, []] := by
    rw [splitOnSub_self_pre bt (t ++ bt) (by decide), splitOnSub_bt_tail h]
  have hocct : occurs bt t = false := by
    have hb : bt = tick :: (("``").data) := rfl
    rw [hb]
    exact occurs_none tick _ t h
  simp [cleanJsonResponse, hno, hyes, hsplit, hocct]

theorem searchAux_found {s r : List Char} (h : matchFrom s = some r) :
    searchAux s = some r := by
  cases s with
  | nil => rw [searchAux, h]
  | cons c cs => rw [searchAux_cons, h]

theorem id_no_slash {id : List Char} (hall : id.all idChar = true) :
    ∀ c ∈ id, c ≠ '/' :=
  fun c hc => idChar_ne_slash (List.all_eq_true.mp hall c hc)

theorem extract_watch_shape (id : List Char) (h11 : id.length = 11)
    (hall : id.all idChar = true) :
    extract_video_id ((("https://www.youtube.com/watch?v=").data) ++ id) =
      some id := by
  have hid : ∀ c ∈ id, c ≠ '/' := id_no_slash hall
  have hA : branchA ((("watch?v=").data) ++ id) = none := by
    refine branchA_no_slash fun c hc => ?_
    rcases List.mem_append.mp hc with h | h
    · have hw : ∀ x ∈ (("watch?v=").data), x ≠ '/' := by decide
      exact hw c h
    · exact hid c h
  have hB : branchB ((("watch?v=").data) ++ id) = none := rfl
  have w1 : lazyStar notSpace
      ('w' :: 'a' :: 't' :: 'c' :: 'h' :: '?' :: 'v' :: '=' :: id) qvK =
      lazyStar notSpace ('a' :: 't' :: 'c' :: 'h' :: '?' :: 'v' :: '=' :: id)
        qvK := lazyStar_step rfl rfl
  have w2 : lazyStar notSpace
      ('a' :: 't' :: 'c' :: 'h' :: '?' :: 'v' :: '=' :: id) qvK =
      lazyStar notSpace ('t' :: 'c' :: 'h' :: '?' :: 'v' :: '=' :: id) qvK :=
    lazyStar_step rfl rfl
  have w3 : lazyStar notSpace ('t' :: 'c' :: 'h' :: '?' :: 'v' :: '=' :: id)
      qvK = lazyStar notSpace ('c' :: 'h' :: '?' :: 'v' :: '=' :: id) qvK :=
    lazyStar_step rfl rfl
  have w4 : lazyStar notSpace ('c' :: 'h' :: '?' :: 'v' :: '=' :: id) qvK =
      lazyStar notSpace ('h' :: '?' :: 'v' :: '=' :: id) qvK :=
    lazyStar_step rfl rfl
  have w5 : lazyStar notSpace ('h' :: '?' :: 'v' :: '=' :: id) qvK =
      lazyStar notSpace ('?' :: 'v' :: '=' :: id) qvK :=
    lazyStar_step rfl rfl
  have hC : branchC ((("watch?v=").data) ++ id) = some id := by
    show lazyStar notSpace
      ('w' :: 'a' :: 't' :: 'c' :: 'h' :: '?' :: 'v' :: '=' :: id) qvK =
      some id
    rw [w1, w2, w3, w4, w5]
    exact lazyStar_done
      (cap11_exact h11 hall : qvK ('?' :: 'v' :: '=' :: id) = some id)
  have hand : afterHost ((("watch?v=").data) ++ id) = some id := by
    unfold afterHost
    rw [hA]
    show (match branchB ((("watch?v=").data) ++ id) with
      | some r => some r
      | none => branchC ((("watch?v=").data) ++ id)) = some id
    rw [hB]
    show branchC ((("watch?v=").data) ++ id) = some id
    exact hC
  have hm : matchFrom ((("youtube.com/watch?v=").data) ++ id) = some id := by
    unfold matchFrom
    have hs : (("youtube.com/watch?v=").data) ++ id =
        (("youtube.com/").data) ++ ((("watch?v=").data) ++ id) := rfl
    rw [hs, litK_app, hand]
  unfold extract_video_id
  have hsplit : (("https://www.youtube.com/watch?v=").data) ++ id =
      (("https://www.").data) ++ ((("youtube.com/watch?v=").data) ++ id) :=
    rfl
  rw [hsplit, searchAux_skip (by decide)]
  exact searchAux_found hm

theorem extract_short_shape (id : List Char) (h11 : id.length = 11)
    (hall : id.all idChar = true) :
    extract_video_id ((("https://youtu.be/").data) ++ id) = some id := by
  have hm : matchFrom ((("youtu.be/").data) ++ id) = some id := by
    unfold matchFrom
    rw [litK_neg (show preB (("youtube.com/").data)
      ((("youtu.be/").data) ++ id) = false from rfl)]
    show litK (("youtu.be/").data) ((("youtu.be/").data) ++ id) cap11 =
      some id
    rw [litK_app, cap11_exact h11 hall]
  unfold extract_video_id
  have hsplit : (("https://youtu.be/").data) ++ id =
      (("https://").data) ++ ((("youtu.be/").data) ++ id) := rfl
  rw [hsplit, searchAux_skip (by decide)]
  exact searchAux_found hm

theorem extract_embed_shape (id : List Char) (h11 : id.length = 11)
    (hall : id.all idChar = true) :
    extract_video_id ((("https://www.youtube.com/embed/").data) ++ id) =
      some id := by
  have hid : ∀ c ∈ id, c ≠ '/' := id_no_slash hall
  have e6 : gp segChar ('/' :: id) aK = none := gp_neg rfl
  have e5 : gp segChar ('d' :: '/' :: id) aK = none :=
    gp_pos_none rfl e6 (aK_cons_slash hid)
  have e4 : gp segChar ('e' :: 'd' :: '/' :: id) aK = none :=
    gp_pos_none rfl e5 rfl
  have e3 : gp segChar ('b' :: 'e' :: 'd' :: '/' :: id) aK = none :=
    gp_pos_none rfl e4 rfl
  have e2 : gp segChar ('m' :: 'b' :: 'e' :: 'd' :: '/' :: id) aK = none :=
    gp_pos_none rfl e3 rfl
  have e1 : gp segChar ('e' :: 'm' :: 'b' :: 'e' :: 'd' :: '/' :: id) aK =
      none := gp_pos_none rfl e2 rfl
  have hA : branchA ((("embed/").data) ++ id) = none := e1
  have hB : branchB ((("embed/").data) ++ id) = some id := by
    unfold branchB
    show (match litK (("embed/").data) ((("embed/").data) ++ id) cap11 with
      | some r => some r
      | none => litK (("e/").data) ((("embed/").data) ++ id) cap11) = some id
    rw [litK_app, cap11_exact h11 hall]
  have hand : afterHost ((("embed/").data) ++ id) = some id := by
    unfold afterHost
    rw [hA]
    show (match branchB ((("embed/").data) ++ id) with
      | some r => some r
      | none => branchC ((("embed/").data) ++ id)) = some id
    rw [hB]
  have hm : matchFrom ((("youtube.com/embed/").data) ++ id) = some id := by
    unfold matchFrom
    have hs : (("youtube.com/embed/").data) ++ id =
        (("youtube.com/").data) ++ ((("embed/").data) ++ id) := rfl
    rw [hs, litK_app, hand]
  unfold extract_video_id
  have hsplit : (("https://www.youtube.com/embed/").data) ++ id =
      (("https://www.").data) ++ ((("youtube.com/embed/").data) ++ id) := rfl
  rw [hsplit, searchAux_skip (by decide)]
  exact searchAux_found hm

theorem extract_vslash_shape (id : List Char) (h11 : id.length = 11)
    (hall : id.all idChar = true) :
    extract_video_id ((("https://www.youtube.com/v/").data) ++ id) =
      some id := by
  have hid : ∀ c ∈ id, c ≠ '/' := id_no_slash hall
  have v2 : gp segChar ('/' :: id) aK = none := gp_neg rfl
  have v1 : gp segChar ('v' :: '/' :: id) aK = none :=
    gp_pos_none rfl v2 (aK_cons_slash hid)
  have hA : branchA ((("v/").data) ++ id) = none := v1
  have hB : branchB ((("v/").data) ++ id) = some id := by
    unfold branchB
    have h1 : litK (("v/").data) ((("v/").data) ++ id) cap11 = cap11 id :=
      litK_app _ _ _
    rw [h1, cap11_exact h11 hall]
  have hand : afterHost ((("v/").data) ++ id) = some id := by
    unfold afterHost
    rw [hA]
    show (match branchB ((("v/").data) ++ id) with
      | some r => some r
      | none => branchC ((("v/").data) ++ id)) = some id
    rw [hB]
  have hm : matchFrom ((("youtube.com/v/").data) ++ id) = some id := by
    unfold matchFrom
    have hs : (("youtube.com/v/").data) ++ id =
        (("youtube.com/").data) ++ ((("v/").data) ++ id) := rfl
    rw [hs, litK_app, hand]
  unfold extract_video_id
  have hsplit : (("https://www.youtube.com/v/").data) ++ id =
      (("https://www.").data) ++ ((("youtube.com/v/").data) ++ id) := rfl
  rw [hsplit, searchAux_skip (by decide)]
  exact searchAux_found hm

theorem extract_no_host {s : List Char}
    (hY : occurs (("youtube.com/").data) s = false)
    (hZ : occurs (("youtu.be/").data) s = false) :
    extract_video_id s = none := by
  unfold extract_video_id
  induction s with
  | nil => rfl
  | cons c cs ih =>
    simp only [occurs, Bool.or_eq_false_iff] at hY hZ
    have hm : matchFrom (c :: cs) = none := by
      unfold matchFrom
      rw [litK_neg hY.1, litK_neg hZ.1]
    rw [searchAux_cons, hm]
    exact ih hY.2 hZ.2

theorem lookupKey_setKey_self (d : List (String × Jv)) (k : String)
    (v : Jv) : lookupKey (setKey d k v) k = some v := by
  induction d with
  | nil => simp [setKey, lookupKey]
  | cons kv rest ih =>
    obtain ⟨k', w⟩ := kv
    by_cases h : k' = k
    · subst h
      simp [setKey, lookupKey]
    · simp [setKey, lookupKey, h, ih]

theorem lookupKey_setKey_other (d : List (String × Jv)) {k k2 : String}
    (v : Jv) (hne : k2 ≠ k) :
    lookupKey (setKey d k v) k2 = lookupKey d k2 := by
  induction d with
  | nil =>
    have : ¬(k = k2) := fun h => hne h.symm
    simp [setKey, lookupKey, this]
  | cons kv rest ih =>
    obtain ⟨k', w⟩ := kv
    by_cases h : k' = k
    · subst h
      have : ¬(k' = k2) := fun h2 => hne h2.symm
      simp [setKey, lookupKey, this]
    · by_cases h2 : k' = k2
      · subst h2
        simp [setKey, lookupKey, h]
      · simp [setKey, lookupKey, h, h2, ih]

theorem hasKey_setKey_other (d : List (String × Jv)) {k k2 : String}
    (v : Jv) (hne : k2 ≠ k) : hasKey (setKey d k v) k2 = hasKey d k2 := by
  unfold hasKey
  rw [lookupKey_setKey_other d v hne]

theorem lookup_ite_set_right {C : Prop} [Decidable C] {k k2 : String}
    (hne : k2 ≠ k) (X : Jv) (d : List (String × Jv)) :
    lookupKey (if C then d else setKey d k X) k2 = lookupKey d k2 := by
  split
  · rfl
  · exact lookupKey_setKey_other d X hne

theorem lookup_ite_set_left {C : Prop} [Decidable C] {k k2 : String}
    (hne : k2 ≠ k) (X : Jv) (d : List (String × Jv)) :
    lookupKey (if C then setKey d k X else d) k2 = lookupKey d k2 := by
  split
  · exact lookupKey_setKey_other d X hne
  · rfl

theorem hasKey_ite_set_right {C : Prop} [Decidable C] {k k2 : String}
    (hne : k2 ≠ k) (X : Jv) (d : List (String × Jv)) :
    hasKey (if C then d else setKey d k X) k2 = hasKey d k2 := by
  unfold hasKey
  rw [lookup_ite_set_right hne]

theorem hasKey_ite_set_left {C : Prop} [Decidable C] {k k2 : String}
    (hne : k2 ≠ k) (X : Jv) (d : List (String × Jv)) :
    hasKey (if C then setKey d k X else d) k2 = hasKey d k2 := by
  unfold hasKey
  rw [lookup_ite_set_left hne]

theorem mergeKey_lookup_other {key k2 : String} (X : Jv)
    (dd : List (String × Jv)) (hne : k2 ≠ key) :
    lookupKey (mergeKey key X dd) k2 = lookupKey dd k2 := by
  unfold mergeKey
  exact lookup_ite_set_right hne X dd

theorem mergeKey_hasKey_other {key k2 : String} (X : Jv)
    (dd : List (String × Jv)) (hne : k2 ≠ key) :
    hasKey (mergeKey key X dd) k2 = hasKey dd k2 := by
  unfold hasKey
  rw [mergeKey_lookup_other X dd hne]

theorem mergeKey_missing (key : String) (X : Jv) (dd : List (String × Jv))
    (hk : hasKey dd key = false) : mergeKey key X dd = setKey dd key X := by
  unfold mergeKey
  rw [if_neg]
  simp [hk]

theorem update_jobj (cur d : List (String × Jv)) :
    update_recommendations cur (some (.jobj d)) =
      .jobj (mergeKey "milestones" ((lookupKey cur "milestones").getD (.jarr []))
        (mergeKey "recommended_videos"
          ((lookupKey cur "recommended_videos").getD (.jarr []))
          (mergeKey "next_steps"
            ((lookupKey cur "next_steps").getD (.jarr [])) d))) := rfl

theorem update_lookup_milestones (cur d : List (String × Jv))
    (hd : hasKey d "milestones" = false) :
    jvGetKey (update_recommendations cur (some (.jobj d))) "milestones" =
      some ((lookupKey cur "milestones").getD (.jarr [])) := by
  rw [update_jobj]
  show lookupKey _ "milestones" = _
  have h1 : hasKey (mergeKey "recommended_videos"
      ((lookupKey cur "recommended_videos").getD (.jarr []))
      (mergeKey "next_steps" ((lookupKey cur "next_steps").getD (.jarr []))
        d)) "milestones" = false := by
    rw [mergeKey_hasKey_other _ _ (by decide),
      mergeKey_hasKey_other _ _ (by decide)]
    exact hd
  rw [mergeKey_missing _ _ _ h1, lookupKey_setKey_self]

theorem update_lookup_next_steps (cur d : List (String × Jv))
    (hd : hasKey d "next_steps" = false) :
    jvGetKey (update_recommendations cur (some (.jobj d))) "next_steps" =
      some ((lookupKey cur "next_steps").getD (.jarr [])) := by
  rw [update_jobj]
  show lookupKey _ "next_steps" = _
  rw [mergeKey_lookup_other _ _ (by decide),
    mergeKey_lookup_other _ _ (by decide),
    mergeKey_missing _ _ _ hd, lookupKey_setKey_self]

theorem update_lookup_videos (cur d : List (String × Jv))
    (hd : hasKey d "recommended_videos" = false) :
    jvGetKey (update_recommendations cur (some (.jobj d)))
      "recommended_videos" =
      some ((lookupKey cur "recommended_videos").getD (.jarr [])) := by
  rw [update_jobj]
  show lookupKey _ "recommended_videos" = _
  rw [mergeKey_lookup_other _ _ (by decide)]
  have h1 : hasKey (mergeKey "next_steps"
      ((lookupKey cur "next_steps").getD (.jarr [])) d)
      "recommended_videos" = false := by
    rw [mergeKey_hasKey_other _ _ (by decide)]
    exact hd
  rw [mergeKey_missing _ _ _ h1, lookupKey_setKey_self]

theorem processLoop_sound :
    ∀ {qs out : List Jv}, processLoop qs = some out →
      out.length ≤ qs.length ∧
      ∀ q ∈ out, allIn quizRequiredKeys q = some true := by
  intro qs
  induction qs with
  | nil =>
    intro out h
    simp only [processLoop, Option.some.injEq] at h
    subst h
    simp
  | cons q rest ih =>
    intro out h
    simp only [processLoop] at h
    rcases hA : allIn quizRequiredKeys q with _ | b
    · rw [hA] at h
      simp at h
    · rw [hA] at h
      cases b with
      | false =>
        obtain ⟨h1, h2⟩ := ih h
        exact ⟨by simp; omega, h2⟩
      | true =>
        rcases hr : processLoop rest with _ | out'
        · rw [hr] at h
          simp at h
        · rw [hr] at h
          simp only [Option.map_some', Option.some.injEq] at h
          subst h
          obtain ⟨h1, h2⟩ := ih hr
          refine ⟨by simp; omega, ?_⟩
          intro x hx
          rcases List.mem_cons.mp hx with rfl | hx'
          · exact hA
          · exact h2 x hx'

theorem canned_ok (n : Nat) :
    (cannedQuestions n).length ≤ n ∧
    ∀ q ∈ cannedQuestions n, allIn quizRequiredKeys q = some true := by
  constructor
  · simp [cannedQuestions]
  · intro q hq
    have h1 : q ∈ (List.replicate (n / 2 + 1) sample_questions).flatten :=
      List.take_subset _ _ hq
    rw [List.mem_flatten] at h1
    obtain ⟨l, hl, hql⟩ := h1
    have heq := List.eq_of_mem_replicate hl
    subst heq
    simp only [sample_questions, List.mem_cons,
      List.not_mem_nil, or_false] at hql
    rcases hql with rfl | rfl <;> decide

theorem quizFrom_ok (qsrc : Option Jv) (num : Nat) :
    (quizFrom qsrc num).length ≤ num ∧
    ∀ q ∈ quizFrom qsrc num, allIn quizRequiredKeys q = some true := by
  match qsrc with
  | none => exact canned_ok num
  | some (.jnull) => exact canned_ok num
  | some (.jbool b) => exact canned_ok num
  | some (.jnum m) => exact canned_ok num
  | some (.jstr s) => exact canned_ok num
  | some (.jobj d) => exact canned_ok num
  | some (.jarr xs) =>
    rcases hp : processLoop (xs.take num) with _ | out
    · simp only [quizFrom, hp]
      exact canned_ok num
    · simp only [quizFrom, hp]
      obtain ⟨h1, h2⟩ := processLoop_sound hp
      refine ⟨h1.trans ?_, h2⟩
      simp

theorem rFix1_lookup_other {k2 : String} (summary d : List (String × Jv))
    (hne : k2 ≠ "summary_text") :
    lookupKey (rFix1 summary d) k2 = lookupKey d k2 := by
  unfold rFix1
  exact lookup_ite_set_right hne _ d

theorem rFix1_hasKey_other {k2 : String} (summary d : List (String × Jv))
    (hne : k2 ≠ "summary_text") :
    hasKey (rFix1 summary d) k2 = hasKey d k2 := by
  unfold hasKey
  rw [rFix1_lookup_other summary d hne]

theorem rFix2_lookup_other {k2 : String} (summary d : List (String × Jv))
    (hne : k2 ≠ "key_points") :
    lookupKey (rFix2 summary d) k2 = lookupKey d k2 := by
  unfold rFix2
  exact lookup_ite_set_left hne _ d

theorem rFix2_hasKey_other {k2 : String} (summary d : List (String × Jv))
    (hne : k2 ≠ "key_points") :
    hasKey (rFix2 summary d) k2 = hasKey d k2 := by
  unfold hasKey
  rw [rFix2_lookup_other summary d hne]

theorem rFix3_lookup_other {k2 : String} (summary d : List (String × Jv))
    (hne : k2 ≠ "topics") :
    lookupKey (rFix3 summary d) k2 = lookupKey d k2 := by
  unfold rFix3
  exact lookup_ite_set_left hne _ d

theorem rFix1_missing (summary d : List (String × Jv))
    (hk : hasKey d "summary_text" = false) :
    rFix1 summary d = setKey d "summary_text"
      ((lookupKey summary "summary_text").getD
        (.jstr "Summary not available.")) := by
  unfold rFix1
  rw [if_neg]
  simp [hk]

theorem rFix2_fill (summary d : List (String × Jv))
    (hc : hasKey d "key_points" = false ∨
      jvFalsy ((lookupKey d "key_points").getD .jnull) = true) :
    rFix2 summary d = setKey d "key_points"
      ((lookupKey summary "key_points").getD
        (.jarr [.jstr "Key points not available."])) := by
  unfold rFix2
  rw [if_pos hc]

theorem rFix3_fill (summary d : List (String × Jv))
    (hc : hasKey d "topics" = false ∨
      jvFalsy ((lookupKey d "topics").getD .jnull) = true) :
    rFix3 summary d = setKey d "topics"
      ((lookupKey summary "topics").getD
        (.jarr [.jstr "Topics not available."])) := by
  unfold rFix3
  rw [if_pos hc]

/-! ## Claim theorems -/

/-- C1: when tier 1 (captions) and tier 2 (AI transcription) both fail or
return insufficient text, `extract_transcript` still returns (it cannot
raise), the result's source is `Sample`, its text is non-empty, and the text
starts with the demo-mode notice prefix. -/
theorem c1_tier3_sample_fallback (tier1 : Except Unit (List String))
    (avail : Bool) (tier2 : Except Unit String) (fileContent : Option String)
    (h1 : tier1_result tier1 = none)
    (h2 : tier2_result avail tier2 = none) :
    extract_transcript tier1 avail tier2 fileContent =
      ⟨demoPrefix ++ load_sample_transcript fileContent, .Sample, true⟩ ∧
    (extract_transcript tier1 avail tier2 fileContent).text ≠ "" ∧
    pyStartsWith demoPrefix
      (extract_transcript tier1 avail tier2 fileContent).text = true := by
  have he : extract_transcript tier1 avail tier2 fileContent =
      ⟨demoPrefix ++ load_sample_transcript fileContent, .Sample, true⟩ := by
    unfold extract_transcript
    rw [h1, h2]
  refine ⟨he, ?_, ?_⟩
  · rw [he]
    intro hcontra
    have hx : demoPrefix ++ load_sample_transcript fileContent = "" := hcontra
    have : (demoPrefix ++ load_sample_transcript fileContent).length = 0 := by
      rw [hx]
      rfl
    rw [String.length_append] at this
    have hd : 0 < demoPrefix.length := by decide
    omega
  · rw [he]
    show preB demoPrefix.data
      (demoPrefix.data ++ (load_sample_transcript fileContent).data) = true
    clear he h1 h2
    induction demoPrefix.data with
    | nil => rfl
    | cons c cs ih => simpa [preB] using ih

/-- C1 witness: both tiers raising transport errors yields the demo-mode
sample result. -/
theorem c1_witness :
    tier1_result (.error ()) = none ∧
    tier2_result true (.error ()) = none ∧
    extract_transcript (.error ()) true (.error ()) (some "sample body") =
      ⟨demoPrefix ++ load_sample_transcript (some "sample body"), .Sample,
        true⟩ ∧
    (extract_transcript (.error ()) true (.error ())
        (some "sample body")).text ≠ "" ∧
    pyStartsWith demoPrefix
      (extract_transcript (.error ()) true (.error ())
        (some "sample body")).text = true := by
  refine ⟨rfl, rfl, ?_⟩
  exact c1_tier3_sample_fallback (.error ()) true (.error ())
    (some "sample body") rfl rfl

/-- C2: when tier 1 returns entries whose joined text has stripped length at
least 51 (strictly greater than 50), the pipeline returns that text with
source `Captions` and `isDegraded = false`, whatever the tier-2 availability,
tier-2 outcome and sample file hold (so tiers 2 and 3 are never consulted). -/
theorem c2_tier1_sufficient (entries : List String)
    (h : (pyStripS (joinSpace entries)).length ≥ 51) :
    ∀ (avail : Bool) (tier2 : Except Unit String)
      (fileContent : Option String),
      extract_transcript (.ok entries) avail tier2 fileContent =
        ⟨joinSpace entries, .Captions, false⟩ := by
  intro avail tier2 fileContent
  have hne : entries ≠ [] := by
    intro hcontra
    rw [hcontra] at h
    simp [joinSpace, pyStripS, pyStrip] at h
  have hts : joinSpace entries ≠ "" := by
    intro hcontra
    rw [hcontra] at h
    simp [pyStripS, pyStrip] at h
  have hgate : tier1_result (.ok entries) = some (joinSpace entries) := by
    show (if entries = [] then none
      else if joinSpace entries ≠ "" ∧
          (pyStripS (joinSpace entries)).length > 50 then
        some (joinSpace entries)
      else none) = some (joinSpace entries)
    rw [if_neg hne, if_pos ⟨hts, by omega⟩]
  unfold extract_transcript
  rw [hgate]

/-- C2 witness: a concrete 60-character caption transcript is returned from
tier 1 even while tier 2 would also succeed. -/
theorem c2_witness :
    (pyStripS (joinSpace ["first caption entry text here",
      "second caption entry text here"])).length ≥ 51 ∧
    extract_transcript
        (.ok ["first caption entry text here",
          "second caption entry text here"]) true
        (.ok (String.mk (List.replicate 80 'x'))) (some "sample") =
      ⟨joinSpace ["first caption entry text here",
        "second caption entry text here"], .Captions, false⟩ := by
  refine ⟨by decide, ?_⟩
  exact c2_tier1_sufficient _ (by decide) true _ _

/-- C3 counterexample: `youtube.com/e/dQw4w9WgXcQ` matches none of the four
URL shapes the spec lists (watch?v=, youtu.be/, /embed/, /v/), yet
`extract_video_id` succeeds on it instead of failing with
`InvalidReference` — the regex also accepts the `/e/` shape. So the claim's
negative direction is false as stated. -/
theorem c3_counterexample :
    spec_known_url_shape (("youtube.com/e/dQw4w9WgXcQ").data) = false ∧
    extract_video_id (("youtube.com/e/dQw4w9WgXcQ").data) =
      some (("dQw4w9WgXcQ").data) := by
  exact ⟨rfl, rfl⟩

/-- C3 amended: for canonical URLs of the four listed shapes the correct
11-character identifier is returned; and a string fails with
`InvalidReference` whenever it contains neither of the regex's two host
markers `youtube.com/` and `youtu.be/` (the regex accepts further
youtube.com shapes beyond the four listed, e.g. `/e/`, so the original
"matches none of those shapes" cannot delimit the failing inputs). -/
theorem c3_amended :
    (∀ id : List Char, id.length = 11 → id.all idChar = true →
      extract_video_id ((("https://www.youtube.com/watch?v=").data) ++ id) =
        some id ∧
      extract_video_id ((("https://youtu.be/").data) ++ id) = some id ∧
      extract_video_id ((("https://www.youtube.com/embed/").data) ++ id) =
        some id ∧
      extract_video_id ((("https://www.youtube.com/v/").data) ++ id) =
        some id) ∧
    (∀ s : List Char, occurs (("youtube.com/").data) s = false →
      occurs (("youtu.be/").data) s = false →
      extract_video_id s = none) := by
  constructor
  · intro id h11 hall
    exact ⟨extract_watch_shape id h11 hall, extract_short_shape id h11 hall,
      extract_embed_shape id h11 hall, extract_vslash_shape id h11 hall⟩
  · intro s hY hZ
    exact extract_no_host hY hZ

/-- C3 witness: the amended theorem applied to a concrete identifier and a
concrete non-URL string. -/
theorem c3_witness :
    extract_video_id
        ((("https://www.youtube.com/watch?v=").data) ++
          (("dQw4w9WgXcQ").data)) = some (("dQw4w9WgXcQ").data) ∧
    extract_video_id (("no url here").data) = none := by
  exact ⟨(c3_amended.1 (("dQw4w9WgXcQ").data) (by decide) (by decide)).1,
    c3_amended.2 (("no url here").data) (by decide) (by decide)⟩

/-- C4: `generate_text` signals `ProviderError` exactly when the single
underlying provider call cannot be completed; on every successful call it
returns the (possibly cleaned) response text; and the result depends only on
the first element of the call stream, i.e. one attempt and no retry. The
codomain `GenText` has only the two constructors, so no other failure signal
exists. -/
theorem c4_provider_error_iff :
    ∀ (out : Except String String) (fmt : Option String),
      isProviderError (generate_text out fmt) = isCallError out ∧
      (∀ t, out = .ok t →
        generate_text out fmt = .success (cleanFor fmt t)) ∧
      (∀ e, out = .error e →
        generate_text out fmt = .providerError (fallbackText fmt e)) ∧
      (∀ calls calls' : Nat → Except String String, calls 0 = calls' 0 →
        generate_text_calls calls fmt = generate_text_calls calls' fmt) := by
  intro out fmt
  refine ⟨?_, ?_, ?_, ?_⟩
  · cases out <;> rfl
  · intro t h
    subst h
    rfl
  · intro e h
    subst h
    rfl
  · intro calls calls' h
    unfold generate_text_calls
    rw [h]

/-- C4 witness: a failing call yields the `ProviderError` fallback payload
and a successful call yields a success response. -/
theorem c4_witness :
    generate_text (.error "boom") (some "json") =
      .providerError (fallbackText (some "json") "boom") ∧
    generate_text (.ok "hello") none = .success (cleanFor none "hello") :=
  ⟨(c4_provider_error_iff (.error "boom") (some "json")).2.2.1 "boom" rfl,
    (c4_provider_error_iff (.ok "hello") none).2.1 "hello" rfl⟩

/-- C5 counterexample: for the inner text `a\x60\x60\x60b` (which itself
contains a triple-backquote), the fenced reply is cleaned to `ab`, not to the
inner text trimmed — the cleanup removes every fence marker occurrence, not
just the surrounding ones, so the claim's unrestricted "for every inner text
t" is false. -/
theorem c5_counterexample :
    cleanJsonResponse (("```jsona```b```").data) = ("ab").data ∧
    (("```jsona```b```").data : List Char) =
      (bjson ++ (("a```b").data)) ++ bt ∧
    pyStrip (("a```b").data) = ("a```b").data ∧
    (("ab").data : List Char) ≠ ("a```b").data := by
  exact ⟨rfl, rfl, rfl, by decide⟩

/-- C5 amended: when the inner text `t` contains no backquote character the
tagged round-trip holds, and when it additionally does not begin with `json`
the untagged round-trip holds: the cleanup returns exactly `t` with
surrounding whitespace trimmed. -/
theorem c5_amended :
    ∀ t : List Char, (∀ c ∈ t, c ≠ tick) →
      cleanJsonResponse ((bjson ++ t) ++ bt) = pyStrip t ∧
      (preB (("json").data) t = false →
        cleanJsonResponse ((bt ++ t) ++ bt) = pyStrip t) := by
  intro t h
  exact ⟨clean_tagged h, fun hnj => clean_untagged h hnj⟩

/-- C5 witness: the amended theorem applied to the concrete inner text
`\n{"ok": 1}\n` whose cleanup is its trimmed form, via both fence styles. -/
theorem c5_witness :
    cleanJsonResponse ((bjson ++ (("\n\x7b\"ok\": 1\x7d\n").data)) ++ bt) =
      pyStrip (("\n\x7b\"ok\": 1\x7d\n").data) ∧
    cleanJsonResponse ((bt ++ (("\n\x7b\"ok\": 1\x7d\n").data)) ++ bt) =
      pyStrip (("\n\x7b\"ok\": 1\x7d\n").data) :=
  ⟨(c5_amended (("\n\x7b\"ok\": 1\x7d\n").data) (by decide)).1,
    (c5_amended (("\n\x7b\"ok\": 1\x7d\n").data) (by decide)).2 (by decide)⟩

/-- C6: in the Learning-Path update, a field the parsed provider response
omits is filled from the current recommendations: when `milestones` is
missing from the response it equals the current (non-empty) list — neither
the empty list nor the hardcoded `.get` default — and the analogous
preservation holds for `next_steps` and `recommended_videos`. -/
theorem c6_update_preserves :
    ∀ (cur d : List (String × Jv)),
      (∀ ms : List Jv, lookupKey cur "milestones" = some (.jarr ms) →
        ms ≠ [] → hasKey d "milestones" = false →
        jvGetKey (update_recommendations cur (some (.jobj d)))
          "milestones" = some (.jarr ms) ∧
        jvGetKey (update_recommendations cur (some (.jobj d)))
          "milestones" ≠ some (.jarr ([] : List Jv))) ∧
      (∀ v, lookupKey cur "next_steps" = some v →
        hasKey d "next_steps" = false →
        jvGetKey (update_recommendations cur (some (.jobj d)))
          "next_steps" = some v) ∧
      (∀ v, lookupKey cur "recommended_videos" = some v →
        hasKey d "recommended_videos" = false →
        jvGetKey (update_recommendations cur (some (.jobj d)))
          "recommended_videos" = some v) := by
  intro cur d
  refine ⟨?_, ?_, ?_⟩
  · intro ms hml hms hd
    have he : jvGetKey (update_recommendations cur (some (.jobj d)))
        "milestones" = some (.jarr ms) := by
      rw [update_lookup_milestones cur d hd, hml]
      rfl
    refine ⟨he, ?_⟩
    rw [he]
    intro hc
    refine hms ?_
    injection hc with h1
    injection h1

  · intro v hv hd
    rw [update_lookup_next_steps cur d hd, hv]
    rfl
  · intro v hv hd
    rw [update_lookup_videos cur d hd, hv]
    rfl

/-- C6 witness: a one-milestone current path and a response missing all
three keys keep the current milestone list. -/
theorem c6_witness :
    jvGetKey (update_recommendations
        [("milestones", Jv.jarr [Jv.jobj [("name", Jv.jstr "A"),
          ("progress", Jv.jnum 10)]])] (some (.jobj [])))
      "milestones" =
      some (.jarr [Jv.jobj [("name", Jv.jstr "A"),
        ("progress", Jv.jnum 10)]]) :=
  ((c6_update_preserves
      [("milestones", Jv.jarr [Jv.jobj [("name", Jv.jstr "A"),
        ("progress", Jv.jnum 10)]])] []).1
    [Jv.jobj [("name", Jv.jstr "A"), ("progress", Jv.jnum 10)]]
    rfl (List.cons_ne_nil _ _) rfl).1

/-- C7 counterexample: the validation filter checks `key in q` with
Python's `in`, which on a string item is a substring test — a provider
response that is a JSON array containing the single string
`question options correct_answer incorrect_feedback` (every required key
occurs as a substring, `correct_feedback` inside `incorrect_feedback`)
makes `generate_quiz` return that string as a quiz item, and a string has
none of the required keys. -/
theorem c7_counterexample :
    generate_quiz (some (.jarr
        [.jstr "question options correct_answer incorrect_feedback"])) 5 =
      [.jstr "question options correct_answer incorrect_feedback"] ∧
    jvGetKey (.jstr "question options correct_answer incorrect_feedback")
      "question" = none :=
  ⟨rfl, rfl⟩

/-- C7 amended: for every provider outcome (including the canned-fallback
path) the returned list never exceeds `num_questions` items, and every item
passes the Python key-containment check for all five required keys — for
dict items that means all five keys are present, but string or list items
can pass it by substring or membership without having keys. -/
theorem c7_amended :
    ∀ (outcome : Option Jv) (num_questions : Nat),
      (generate_quiz outcome num_questions).length ≤ num_questions ∧
      ∀ q ∈ generate_quiz outcome num_questions,
        allIn quizRequiredKeys q = some true := by
  intro outcome num
  match outcome with
  | none => exact canned_ok num
  | some qd => exact quizFrom_ok (quizSource qd) num

/-- C7 witness: the amended theorem applied to the canned path with one
requested question; the canned item is a dict holding all required keys. -/
theorem c7_witness :
    (generate_quiz none 1).length ≤ 1 ∧
    allIn quizRequiredKeys (sample_questions.headD .jnull) = some true :=
  ⟨(c7_amended none 1).1,
    (c7_amended none 1).2 (sample_questions.headD .jnull) (by
      rw [show generate_quiz none 1 = [sample_questions.headD .jnull]
        from rfl]
      exact List.Mem.head _)⟩

/-- C8: on the empty-string transcript, `generate_summary` returns exactly
the documented "Invalid transcript format" payload — whatever the provider
outcome would have been, so no model call influences the result — and all
three required fields are present and non-empty (non-falsy). -/
theorem c8_empty_transcript_payload :
    ∀ outcome : SummOutcome,
      generate_summary "" outcome = invalid_payload ∧
      jvGetKey invalid_payload "summary_text" =
        some (.jstr "Unable to generate summary: Invalid transcript format.") ∧
      jvGetKey invalid_payload "key_points" =
        some (.jarr [.jstr "Invalid transcript data",
          .jstr "Please ensure the video has captions available"]) ∧
      jvGetKey invalid_payload "topics" =
        some (.jarr [.jstr "Error: Invalid Input"]) ∧
      (jvGetKey invalid_payload "summary_text").map jvFalsy = some false ∧
      (jvGetKey invalid_payload "key_points").map jvFalsy = some false ∧
      (jvGetKey invalid_payload "topics").map jvFalsy = some false :=
  fun _ => ⟨rfl, rfl, rfl, rfl, rfl, rfl, rfl⟩

/-- C9: an absent (empty) transcript short-circuits `generate_response` to
the fixed process-a-video-first reply with no model call and no history
formatting; with a transcript present, the formatted context is exactly the
last five (or fewer) history turns as role/content pairs. -/
theorem c9_chat_short_circuit :
    ∀ (user_query : String) (chat_history : List (List (String × Jv)))
      (outcome : Except String String),
      generate_response user_query "" chat_history outcome =
        ⟨chatNoTranscriptReply, false, []⟩ ∧
      (∀ transcript : String, transcript ≠ "" →
        (generate_response user_query transcript chat_history
            outcome).formatted =
          (chat_history.drop (chat_history.length - 5)).map fmtMsg ∧
        (generate_response user_query transcript chat_history
            outcome).formatted.length ≤ 5) := by
  intro q hist o
  constructor
  · rfl
  · intro t ht
    have he : generate_response q t hist o =
        match o with
        | .ok t' => ⟨t', true,
            (hist.drop (hist.length - 5)).map fmtMsg⟩
        | .error e =>
          ⟨"I apologize, but I encountered an error while processing your question: "
            ++ e ++ ". Could you try asking in a different way?", true,
            (hist.drop (hist.length - 5)).map fmtMsg⟩ := by
      unfold generate_response
      rw [if_neg ht]
    cases o with
    | ok t' =>
      rw [he]
      refine ⟨rfl, ?_⟩
      show ((hist.drop (hist.length - 5)).map fmtMsg).length ≤ 5
      rw [List.length_map, List.length_drop]
      omega
    | error e =>
      rw [he]
      refine ⟨rfl, ?_⟩
      show ((hist.drop (hist.length - 5)).map fmtMsg).length ≤ 5
      rw [List.length_map, List.length_drop]
      omega

/-- C9 witness: a concrete context with no transcript short-circuits; with
a transcript, a one-turn history is formatted in full (at most five). -/
theorem c9_witness :
    generate_response "what is this about" "" [[("role", Jv.jstr "user")]]
        (.ok "reply") = ⟨chatNoTranscriptReply, false, []⟩ ∧
    (generate_response "what is this about" "some transcript"
        [[("role", Jv.jstr "user")]] (.ok "reply")).formatted =
      (([[("role", Jv.jstr "user")]] :
          List (List (String × Jv))).drop
        (([[("role", Jv.jstr "user")]] :
          List (List (String × Jv))).length - 5)).map fmtMsg ∧
    (generate_response "what is this about" "some transcript"
        [[("role", Jv.jstr "user")]] (.ok "reply")).formatted.length ≤ 5 :=
  ⟨(c9_chat_short_circuit "what is this about" [[("role", Jv.jstr "user")]]
      (.ok "reply")).1,
    ((c9_chat_short_circuit "what is this about"
        [[("role", Jv.jstr "user")]] (.ok "reply")).2 "some transcript"
      (by decide)).1,
    ((c9_chat_short_circuit "what is this about"
        [[("role", Jv.jstr "user")]] (.ok "reply")).2 "some transcript"
      (by decide)).2⟩

/-- C10 counterexample: a parsed response whose `summary_text` is present
but empty keeps the empty string — the code checks only key absence for
`summary_text` (line 344), so an empty required field is not filled from
the original summary, contradicting the claim's "any missing or empty
required field". -/
theorem c10_counterexample :
    refine_summary
        [("summary_text", Jv.jstr "orig summary"),
          ("key_points", Jv.jarr [Jv.jstr "k"]),
          ("topics", Jv.jarr [Jv.jstr "t"])]
        (.parsed (.jobj [("summary_text", Jv.jstr ""),
          ("key_points", Jv.jarr [Jv.jstr "k2"]),
          ("topics", Jv.jarr [Jv.jstr "t2"])])) =
      .jobj [("summary_text", Jv.jstr ""),
        ("key_points", Jv.jarr [Jv.jstr "k2"]),
        ("topics", Jv.jarr [Jv.jstr "t2"])] ∧
    jvFalsy (Jv.jstr "") = true ∧
    lookupKey [("summary_text", Jv.jstr "orig summary"),
        ("key_points", Jv.jarr [Jv.jstr "k"]),
        ("topics", Jv.jarr [Jv.jstr "t"])] "summary_text" =
      some (Jv.jstr "orig summary") ∧
    Jv.jstr "" ≠ Jv.jstr "orig summary" := by
  refine ⟨rfl, rfl, rfl, ?_⟩
  intro h
  injection h with h1
  exact absurd h1 (by decide)

/-- C10 amended: parse failures and any other exception leave the caller's
summary exactly as it was; in a successfully parsed dict response a missing
`summary_text`, and a missing-or-empty `key_points` or `topics`, are filled
from the original summary's value (a present-but-empty `summary_text` is
kept, which is what the counterexample forces). -/
theorem c10_amended :
    ∀ (summary d : List (String × Jv)),
      (refine_summary summary .raised = .jobj summary ∧
        refine_summary summary .parseFailed = .jobj summary) ∧
      (∀ v, hasKey d "summary_text" = false →
        lookupKey summary "summary_text" = some v →
        jvGetKey (refine_summary summary (.parsed (.jobj d)))
          "summary_text" = some v) ∧
      (∀ v, (hasKey d "key_points" = false ∨
          jvFalsy ((lookupKey d "key_points").getD .jnull) = true) →
        lookupKey summary "key_points" = some v →
        jvGetKey (refine_summary summary (.parsed (.jobj d)))
          "key_points" = some v) ∧
      (∀ v, (hasKey d "topics" = false ∨
          jvFalsy ((lookupKey d "topics").getD .jnull) = true) →
        lookupKey summary "topics" = some v →
        jvGetKey (refine_summary summary (.parsed (.jobj d)))
          "topics" = some v) := by
  intro summary d
  refine ⟨⟨rfl, rfl⟩, ?_, ?_, ?_⟩
  · intro v hk hl
    show lookupKey (rFix3 summary (rFix2 summary (rFix1 summary d)))
      "summary_text" = some v
    rw [rFix3_lookup_other _ _ (by decide),
      rFix2_lookup_other _ _ (by decide), rFix1_missing summary d hk,
      lookupKey_setKey_self, hl, Option.getD_some]
  · intro v hc hl
    show lookupKey (rFix3 summary (rFix2 summary (rFix1 summary d)))
      "key_points" = some v
    have hc1 : hasKey (rFix1 summary d) "key_points" = false ∨
        jvFalsy ((lookupKey (rFix1 summary d) "key_points").getD .jnull) =
          true := by
      rw [rFix1_hasKey_other _ _ (by decide),
        rFix1_lookup_other _ _ (by decide)]
      exact hc
    rw [rFix3_lookup_other _ _ (by decide), rFix2_fill summary _ hc1,
      lookupKey_setKey_self, hl, Option.getD_some]
  · intro v hc hl
    show lookupKey (rFix3 summary (rFix2 summary (rFix1 summary d)))
      "topics" = some v
    have hc1 : hasKey (rFix2 summary (rFix1 summary d)) "topics" = false ∨
        jvFalsy ((lookupKey (rFix2 summary (rFix1 summary d))
          "topics").getD .jnull) = true := by
      rw [rFix2_hasKey_other _ _ (by decide),
        rFix2_lookup_other _ _ (by decide),
        rFix1_hasKey_other _ _ (by decide),
        rFix1_lookup_other _ _ (by decide)]
      exact hc
    rw [rFix3_fill summary _ hc1, lookupKey_setKey_self, hl,
      Option.getD_some]

/-- C10 witness: a parse failure returns the original summary unchanged,
and a parsed response missing `summary_text` gets the original value. -/
theorem c10_witness :
    refine_summary [("summary_text", Jv.jstr "orig")] .parseFailed =
      .jobj [("summary_text", Jv.jstr "orig")] ∧
    jvGetKey (refine_summary [("summary_text", Jv.jstr "orig")]
        (.parsed (.jobj [("key_points", Jv.jarr [Jv.jstr "k"])])))
      "summary_text" = some (Jv.jstr "orig") :=
  ⟨(c10_amended [("summary_text", Jv.jstr "orig")] []).1.2,
    (c10_amended [("summary_text", Jv.jstr "orig")]
        [("key_points", Jv.jarr [Jv.jstr "k"])]).2.1
      (Jv.jstr "orig") rfl rfl⟩

end VLearn
